import Mathlib

/-!
Verification of the reading-to-trajectory pipeline of `Dashboard_to_gpx.py`:
the OCR-text coordinate parser (`extract_coords_from_text`), the trajectory
sanitizer (`correct_sign`, `haversine`, `sanity_check`) and the GPX writer
(`write_gpx`).

Text is modelled as `List Char`.  Python floats are modelled as exact
rationals (`ℚ`) for all arithmetic the program performs exactly
(comparisons, negation, absolute value, field operations); the transcendental
haversine distance is modelled over the real numbers `ℝ`.  Digits are the
ASCII digits 0-9: the OCR stage runs with the character whitelist
`0123456789NnSsEeWw°.,-`, so no other digit-like characters reach the parser.
-/

namespace DashboardToGpx

/-! ### Coordinate parser

The source parses with the Python regular expression

  `(-?\d{1,3}\.\d+)[ ,°]*([NnSs])?[^0-9\-]*(-?\d{1,3}\.\d+)[ ,°]*([EeWw])?`

applied with `re.search` (leftmost starting position, each quantifier greedy,
full backtracking).  The pattern is compiled here by hand: each quantified
piece produces its list of candidate ways to match, ordered exactly as the
regex engine tries them (greedy first), and the pieces are chained with
`List.findSome?`, which realises the engine's backtracking order (the most
recently opened choice point is retried first). -/

/-- Character class `[ ,°]`. -/
def isSepChar (c : Char) : Bool := c = ' ' || c = ',' || c = '°'

/-- Character class `[NnSs]`. -/
def isNSChar (c : Char) : Bool := c = 'N' || c = 'n' || c = 'S' || c = 's'

/-- Character class `[EeWw]`. -/
def isEWChar (c : Char) : Bool := c = 'E' || c = 'e' || c = 'W' || c = 'w'

/-- Character class `[^0-9\-]`. -/
def isGapChar (c : Char) : Bool := !(c.isDigit || c = '-')

/-- Candidate remainders for the greedy star `p*` on `s`: consume the maximal
run of `p`-characters first, then ever shorter amounts, down to nothing. -/
def starCands (p : Char → Bool) (s : List Char) : List (List Char) :=
  let m := (s.takeWhile p).length
  (List.range (m + 1)).map (fun j => s.drop (m - j))

/-- Candidates for the greedy option `(c)?` on class `p`: capture the
character first when it is there, then the empty alternative. -/
def optCands (p : Char → Bool) (s : List Char) : List (Option Char × List Char) :=
  match s with
  | c :: rest => if p c then [(some c, rest), (none, c :: rest)] else [(none, c :: rest)]
  | [] => [(none, [])]

/-- Digit counts the greedy `\d{1,3}` tries on `s`, longest first. -/
def intCands (s : List Char) : List ℕ :=
  let m := min (s.takeWhile Char.isDigit).length 3
  (List.range m).map (fun j => m - j)

/-- Digit counts the greedy `\d+` tries on `s`, longest first. -/
def fracCands (s : List Char) : List ℕ :=
  let m := (s.takeWhile Char.isDigit).length
  (List.range m).map (fun j => m - j)

/-- All ways the number pattern `-?\d{1,3}\.\d+` can match a front of `s`,
as (captured characters, remainder), in the engine's backtracking order. -/
def numCands (s : List Char) : List (List Char × List Char) :=
  let core := fun (u : List Char) =>
    (intCands u).flatMap (fun k =>
      match u.drop k with
      | '.' :: rest2 =>
        (fracCands rest2).map (fun j => (u.take k ++ '.' :: rest2.take j, rest2.drop j))
      | _ => [])
  match s with
  | '-' :: rest => (core rest).map (fun pr => ('-' :: pr.1, pr.2)) ++ core ('-' :: rest)
  | _ => core s

/-- The four capture groups of one successful match of the coordinate
pattern: raw latitude text (sign included), the N/S letter, raw longitude
text, the E/W letter. -/
structure RawMatch where
  latRaw : List Char
  ns : Option Char
  lonRaw : List Char
  ew : Option Char
deriving DecidableEq

/-- One attempt to match the whole coordinate pattern at the start of `s`,
with the regex engine's greedy/backtracking candidate order. -/
def matchAt (s : List Char) : Option RawMatch :=
  (numCands s).findSome? (fun g1 =>
    (starCands isSepChar g1.2).findSome? (fun r2 =>
      (optCands isNSChar r2).findSome? (fun nsr =>
        (starCands isGapChar nsr.2).findSome? (fun r4 =>
          (numCands r4).findSome? (fun g3 =>
            (starCands isSepChar g3.2).findSome? (fun r6 =>
              (optCands isEWChar r6).findSome? (fun ewr =>
                some ⟨g1.1, nsr.1, g3.1, ewr.1⟩)))))))

/-- The searching loop of `re.search`: try each start position from the left,
return the first position's match. -/
def searchText : List Char → Option RawMatch
  | [] => matchAt []
  | c :: rest =>
    match matchAt (c :: rest) with
    | some m => some m
    | none => searchText rest

/-- Value of a run of decimal digit characters. -/
def natOfDigits (l : List Char) : ℕ :=
  l.foldl (fun acc c => 10 * acc + (c.toNat - 48)) 0

/-- Value of an unsigned decimal literal `digits.digits`, as Python `float`
reads the matched group (exact rational model). -/
def pyFloatCore (s : List Char) : ℚ :=
  let ip := s.takeWhile Char.isDigit
  match s.dropWhile Char.isDigit with
  | '.' :: frac => (natOfDigits ip : ℚ) + (natOfDigits frac : ℚ) / 10 ^ frac.length
  | _ => (natOfDigits ip : ℚ)

/-- Value of a possibly `-`-signed decimal literal, as Python `float`. -/
def pyFloat (s : List Char) : ℚ :=
  match s with
  | '-' :: rest => -(pyFloatCore rest)
  | _ => pyFloatCore s

/-- Executable model of Python `abs` on our exact rationals (it agrees with
Mathlib's lattice absolute value, see `ratAbs_eq_abs`, but reduces in the
kernel). -/
def ratAbs (q : ℚ) : ℚ := if q < 0 then -q else q

/-- Hemisphere resolution for latitude:
`lat = -abs(lat) if ns.upper() == "S" else abs(lat)` when the letter is there. -/
def resolveNS (lat : ℚ) (ns : Option Char) : ℚ :=
  match ns with
  | some c => if c.toUpper = 'S' then -(ratAbs lat) else ratAbs lat
  | none => lat

/-- Hemisphere resolution for longitude:
`lon = -abs(lon) if ew.upper() == "W" else abs(lon)` when the letter is there. -/
def resolveEW (lon : ℚ) (ew : Option Char) : ℚ :=
  match ew with
  | some c => if c.toUpper = 'W' then -(ratAbs lon) else ratAbs lon
  | none => lon

/-- The coordinate parser `extract_coords_from_text`: search the text for the
coordinate pattern, read the two numeric groups, resolve hemisphere letters,
or report no reading. -/
def extract_coords_from_text (text : List Char) : Option (ℚ × ℚ) :=
  match searchText text with
  | some m => some (resolveNS (pyFloat m.latRaw) m.ns, resolveEW (pyFloat m.lonRaw) m.ew)
  | none => none

/-- The executable absolute value agrees with the lattice one. -/
theorem ratAbs_eq_abs (q : ℚ) : ratAbs q = |q| := by
  unfold ratAbs
  rcases lt_or_le q 0 with h | h
  · rw [if_pos h, abs_of_neg h]
  · rw [if_neg (not_lt.mpr h), abs_of_nonneg h]

/-- The search loop fails exactly when the pattern matches at no start
position. -/
theorem searchText_eq_none_iff (text : List Char) :
    searchText text = none ↔ ∀ i : ℕ, matchAt (text.drop i) = none := by
  induction text with
  | nil =>
    constructor
    · intro h i; simpa using h
    · intro h; simpa using h 0
  | cons c rest ih =>
    simp only [searchText]
    cases hm : matchAt (c :: rest) with
    | some m =>
      refine iff_of_false (by simp) (fun hall => ?_)
      have h0 := hall 0
      rw [List.drop_zero, hm] at h0
      exact Option.noConfusion h0
    | none =>
      constructor
      · intro h i
        cases i with
        | zero => simpa using hm
        | succ j => simpa using (ih.mp h) j
      · intro h
        exact ih.mpr (fun i => by simpa using h (i + 1))

/-! ### Claims about the parser -/

/-- C5: hemisphere letters are the authoritative sign: an S (or s) in the
match forces the reported latitude to the negated absolute value of the raw
number, N forces the absolute value, and W/E do the same for longitude; on
the three reference texts the parser returns `(-43.5, 79.2)`, `(43.5, -79.2)`
and the unchanged `(43.5, 79.2)`. -/
theorem hemisphere_letter_resolution
    (text : List Char) (m : RawMatch) (hm : searchText text = some m) :
    (extract_coords_from_text "43.5S 79.2E".toList = some (-43.5, 79.2))
    ∧ (extract_coords_from_text "43.5N 79.2W".toList = some (43.5, -79.2))
    ∧ (extract_coords_from_text "43.5 79.2".toList = some (43.5, 79.2))
    ∧ ((m.ns = some 'S' ∨ m.ns = some 's') →
        (extract_coords_from_text text).map Prod.fst = some (-|pyFloat m.latRaw|))
    ∧ ((m.ns = some 'N' ∨ m.ns = some 'n') →
        (extract_coords_from_text text).map Prod.fst = some |pyFloat m.latRaw|)
    ∧ ((m.ew = some 'W' ∨ m.ew = some 'w') →
        (extract_coords_from_text text).map Prod.snd = some (-|pyFloat m.lonRaw|))
    ∧ ((m.ew = some 'E' ∨ m.ew = some 'e') →
        (extract_coords_from_text text).map Prod.snd = some |pyFloat m.lonRaw|) := by
  have hs1 : searchText "43.5S 79.2E".toList
      = some ⟨"43.5".toList, some 'S', "79.2".toList, some 'E'⟩ := by decide
  have hs2 : searchText "43.5N 79.2W".toList
      = some ⟨"43.5".toList, some 'N', "79.2".toList, some 'W'⟩ := by decide
  have hs3 : searchText "43.5 79.2".toList
      = some ⟨"43.5".toList, none, "79.2".toList, none⟩ := by decide
  refine ⟨?_, ?_, ?_, ?_, ?_, ?_, ?_⟩
  · simp +decide only [extract_coords_from_text, hs1]
    simp +decide [resolveNS, resolveEW, ratAbs, pyFloat, pyFloatCore, natOfDigits]
    norm_num
  · simp +decide only [extract_coords_from_text, hs2]
    simp +decide [resolveNS, resolveEW, ratAbs, pyFloat, pyFloatCore, natOfDigits]
    norm_num
  · simp +decide only [extract_coords_from_text, hs3]
    simp +decide [resolveNS, resolveEW, pyFloat, pyFloatCore, natOfDigits]
    norm_num
  · rintro (h | h) <;> simp +decide [extract_coords_from_text, hm, resolveNS, h, ratAbs_eq_abs]
  · rintro (h | h) <;> simp +decide [extract_coords_from_text, hm, resolveNS, h, ratAbs_eq_abs]
  · rintro (h | h) <;> simp +decide [extract_coords_from_text, hm, resolveEW, h, ratAbs_eq_abs]
  · rintro (h | h) <;> simp +decide [extract_coords_from_text, hm, resolveEW, h, ratAbs_eq_abs]

/-- Witness for C5: on `"43.5S 79.2E"` the S letter forces the latitude to
`-43.5`, the negated absolute value of the matched number. -/
theorem hemisphere_letter_resolution_witness :
    (extract_coords_from_text "43.5S 79.2E".toList).map Prod.fst
      = some (-|pyFloat "43.5".toList|) :=
  (hemisphere_letter_resolution "43.5S 79.2E".toList
    ⟨"43.5".toList, some 'S', "79.2".toList, some 'E'⟩ (by decide)).2.2.2.1 (Or.inl rfl)

/-- C6: the parser reports "no reading" exactly when the coordinate pattern
matches at no position of the text; in particular the empty text parses to
"no reading" (and the parser is a total function, so no input raises). -/
theorem parse_no_match_iff_none (text : List Char) :
    (extract_coords_from_text text = none ↔ ∀ i : ℕ, matchAt (text.drop i) = none)
    ∧ extract_coords_from_text "".toList = none := by
  refine ⟨?_, by decide⟩
  have hsearch := searchText_eq_none_iff text
  cases hs : searchText text with
  | some m =>
    refine iff_of_false (by simp [extract_coords_from_text, hs]) (fun hall => ?_)
    have hn := hsearch.mpr hall
    rw [hs] at hn
    exact Option.noConfusion hn
  | none =>
    exact iff_of_true (by simp [extract_coords_from_text, hs]) (hsearch.mp hs)

/-! ### Trajectory sanitizer -/

/-- Python `math.radians`: degrees to radians. -/
noncomputable def radians (x : ℝ) : ℝ := x * Real.pi / 180

open scoped Classical in
/-- Python `math.atan2 y x`: the angle of the point `(x, y)`. -/
noncomputable def atan2 (y x : ℝ) : ℝ :=
  if 0 < x then Real.arctan (y / x)
  else if x < 0 then
    (if 0 ≤ y then Real.arctan (y / x) + Real.pi else Real.arctan (y / x) - Real.pi)
  else
    (if 0 < y then Real.pi / 2 else if y < 0 then -(Real.pi / 2) else 0)

/-- The `haversine` great-circle distance of the source, on a sphere of
radius 6,371,000 meters. -/
noncomputable def haversine (lat1 lon1 lat2 lon2 : ℝ) : ℝ :=
  let R : ℝ := 6371000
  let phi1 := radians lat1
  let phi2 := radians lat2
  let dphi := radians (lat2 - lat1)
  let dlambda := radians (lon2 - lon1)
  let a := Real.sin (dphi / 2) ^ 2 + Real.cos phi1 * Real.cos phi2 * Real.sin (dlambda / 2) ^ 2
  R * 2 * atan2 (Real.sqrt a) (Real.sqrt (1 - a))

/-- One reading `(timestamp in seconds, latitude, longitude)`. -/
abbrev Reading : Type := ℚ × ℚ × ℚ

/-- The source's `correct_sign`: flip an axis when its magnitude exceeds one
degree and its sign disagrees with the expected hemisphere sign.  Returns the
corrected latitude and longitude and the two `flipped` flags. -/
def correct_sign (lat lon : ℚ) (expected_lat_sign expected_lon_sign : ℤ) :
    ℚ × ℚ × Bool × Bool :=
  let latR : ℚ × Bool :=
    if 1 < ratAbs lat ∧ lat * (expected_lat_sign : ℚ) < 0 then (-lat, true) else (lat, false)
  let lonR : ℚ × Bool :=
    if 1 < ratAbs lon ∧ lon * (expected_lon_sign : ℚ) < 0 then (-lon, true) else (lon, false)
  (latR.1, lonR.1, latR.2, lonR.2)

open scoped Classical in
/-- The loop body of the source's `sanity_check`: `i` is the enumeration
index, `cleaned`/`flips`/`skipped` the accumulated state.  A reading is sign
corrected; when an anchor exists (`i > 0 and cleaned`) and the elapsed time
`dt` is positive, the implied speed `dist / dt * 3.6` is checked against
300 km/h, and an implausible reading is skipped without touching the anchor;
every other reading is appended and becomes the new anchor `cleaned[-1]`. -/
noncomputable def sanityLoop (elat elon : ℤ) :
    List Reading → ℕ → List Reading → ℕ → ℕ → List Reading × ℕ × ℕ
  | [], _, cleaned, flips, skipped => (cleaned, flips, skipped)
  | (t, lat, lon) :: rest, i, cleaned, flips, skipped =>
    let c := correct_sign lat lon elat elon
    let flips' := if c.2.2.1 || c.2.2.2 then flips + 1 else flips
    if 0 < i then
      match cleaned.getLast? with
      | some prev =>
        let dt : ℚ := t - prev.1
        if 0 < dt then
          if 300 < haversine (prev.2.1 : ℝ) (prev.2.2 : ℝ) (c.1 : ℝ) (c.2.1 : ℝ) / (dt : ℝ) * 3.6 then
            sanityLoop elat elon rest (i + 1) cleaned flips' (skipped + 1)
          else
            sanityLoop elat elon rest (i + 1) (cleaned ++ [(t, c.1, c.2.1)]) flips' skipped
        else
          sanityLoop elat elon rest (i + 1) (cleaned ++ [(t, c.1, c.2.1)]) flips' skipped
      | none =>
        sanityLoop elat elon rest (i + 1) (cleaned ++ [(t, c.1, c.2.1)]) flips' skipped
    else
      sanityLoop elat elon rest (i + 1) (cleaned ++ [(t, c.1, c.2.1)]) flips' skipped

/-- The source's `sanity_check`: one pass over the readings, returning the
cleaned sequence, the number of sign corrections and the number of skipped
readings. -/
noncomputable def sanity_check (points : List Reading) (elat elon : ℤ) :
    List Reading × ℕ × ℕ :=
  sanityLoop elat elon points 0 [] 0 0

/-- Sign correction of one reading, as the loop applies it before the
plausibility check. -/
def applySign (elat elon : ℤ) (r : Reading) : Reading :=
  (r.1, (correct_sign r.2.1 r.2.2 elat elon).1, (correct_sign r.2.1 r.2.2 elat elon).2.1)

/-! ### GPX writer -/

/-- Round a rational to the nearest integer, ties to the even integer, as
Python fixed-point formatting rounds. -/
def roundHalfEven (x : ℚ) : ℤ :=
  if x - ⌊x⌋ < 1 / 2 then ⌊x⌋
  else if 1 / 2 < x - ⌊x⌋ then ⌊x⌋ + 1
  else if 2 ∣ ⌊x⌋ then ⌊x⌋ else ⌊x⌋ + 1

/-- The six digits after the decimal point of a fixed-point rendering of
`n / 10^6`, most significant first. -/
def fracDigits6 (n : ℕ) : List Char :=
  [Nat.digitChar (n / 100000 % 10), Nat.digitChar (n / 10000 % 10),
   Nat.digitChar (n / 1000 % 10), Nat.digitChar (n / 100 % 10),
   Nat.digitChar (n / 10 % 10), Nat.digitChar (n % 10)]

/-- Python `f"{q:.6f}"` on an exact rational: sign, integer part, a point,
then exactly six fractional digits. -/
def fmt6 (q : ℚ) : List Char :=
  let m : ℕ := (roundHalfEven (ratAbs q * 1000000)).toNat
  (if q < 0 then ['-'] else []) ++ (Nat.repr (m / 1000000)).toList ++ '.' :: fracDigits6 (m % 1000000)

/-- The track point line the source writes for one reading, `t` being the
ISO-8601 rendering of the reading's timestamp. -/
def trkpt_line (t : List Char) (lat lon : ℚ) : List Char :=
  "      <trkpt lat=\"".toList ++ fmt6 lat ++ "\" lon=\"".toList ++ fmt6 lon
    ++ "\"><time>".toList ++ t ++ "Z</time></trkpt>\n".toList

/-- Everything `write_gpx` writes before the track points: the XML
declaration, the opening `gpx` element, one `trk` and one `trkseg`. -/
def gpxHeader : List Char :=
  ("<?xml version=\"1.0\" encoding=\"UTF-8\"?>\n"
    ++ "<gpx version=\"1.1\" creator=\"DashcamExtractor\" xmlns=\"http://www.topografix.com/GPX/1/1\">\n"
    ++ "  <trk>\n    <trkseg>\n").toList

/-- Everything `write_gpx` writes after the track points: closing the one
`trkseg`, the one `trk` and the `gpx` element. -/
def gpxFooter : List Char := "    </trkseg>\n  </trk>\n</gpx>\n".toList

/-- The source's `write_gpx`, modelled as the text it writes: the sequential
`f.write` calls concatenate the header, one `trkpt` line per point in order,
and the footer. -/
def write_gpx (points : List (List Char × ℚ × ℚ)) : List Char :=
  gpxHeader ++ points.foldl (fun acc p => acc ++ trkpt_line p.1 p.2.1 p.2.2) [] ++ gpxFooter

/-- The fractional digits of a rendered number: the characters after the
last point. -/
def decimalsOf (s : List Char) : List Char :=
  s.reverse.takeWhile (fun c => !(c == '.'))

/-! ### Helper lemmas about the sanitizer -/

/-- Closed form of `correct_sign`. -/
theorem correct_sign_eq (lat lon : ℚ) (elat elon : ℤ) :
    correct_sign lat lon elat elon =
      (if 1 < |lat| ∧ lat * (elat : ℚ) < 0 then -lat else lat,
       if 1 < |lon| ∧ lon * (elon : ℚ) < 0 then -lon else lon,
       decide (1 < |lat| ∧ lat * (elat : ℚ) < 0),
       decide (1 < |lon| ∧ lon * (elon : ℚ) < 0)) := by
  unfold correct_sign
  rw [ratAbs_eq_abs, ratAbs_eq_abs]
  by_cases h1 : 1 < |lat| ∧ lat * (elat : ℚ) < 0 <;>
    by_cases h2 : 1 < |lon| ∧ lon * (elon : ℚ) < 0 <;>
      simp [h1, h2]

/-- Sign correction preserves the timestamp and the magnitudes of both
coordinates. -/
theorem applySign_preserves (elat elon : ℤ) (r : Reading) :
    (applySign elat elon r).1 = r.1
      ∧ |(applySign elat elon r).2.1| = |r.2.1|
      ∧ |(applySign elat elon r).2.2| = |r.2.2| := by
  obtain ⟨t, lat, lon⟩ := r
  unfold applySign
  rw [correct_sign_eq]
  refine ⟨rfl, ?_, ?_⟩ <;> dsimp only <;> split <;> simp [abs_neg]

/-- Every run of the loop keeps the already-accepted list as an untouched
front and appends a subsequence of the sign-corrected remaining readings. -/
theorem sanityLoop_tail (elat elon : ℤ) :
    ∀ (rest : List Reading) (i : ℕ) (cleaned : List Reading) (flips skipped : ℕ),
    ∃ s, (sanityLoop elat elon rest i cleaned flips skipped).1 = cleaned ++ s
      ∧ List.Sublist s (rest.map (applySign elat elon)) := by
  intro rest
  induction rest with
  | nil =>
    intro i cleaned flips skipped
    exact ⟨[], by simp [sanityLoop], by simp⟩
  | cons hd tl ih =>
    intro i cleaned flips skipped
    obtain ⟨t, lat, lon⟩ := hd
    simp only [sanityLoop, List.map_cons]
    split
    · split
      · split
        · split
          · obtain ⟨s, h1, h2⟩ := ih ..
            exact ⟨s, h1, h2.cons _⟩
          · obtain ⟨s, h1, h2⟩ := ih ..
            refine ⟨(t, (correct_sign lat lon elat elon).1,
              (correct_sign lat lon elat elon).2.1) :: s, ?_, ?_⟩
            · rw [h1, List.append_assoc]; simp
            · exact h2.cons₂ _
        · obtain ⟨s, h1, h2⟩ := ih ..
          refine ⟨(t, (correct_sign lat lon elat elon).1,
            (correct_sign lat lon elat elon).2.1) :: s, ?_, ?_⟩
          · rw [h1, List.append_assoc]; simp
          · exact h2.cons₂ _
      · obtain ⟨s, h1, h2⟩ := ih ..
        refine ⟨(t, (correct_sign lat lon elat elon).1,
          (correct_sign lat lon elat elon).2.1) :: s, ?_, ?_⟩
        · rw [h1, List.append_assoc]; simp
        · exact h2.cons₂ _
    · obtain ⟨s, h1, h2⟩ := ih ..
      refine ⟨(t, (correct_sign lat lon elat elon).1,
        (correct_sign lat lon elat elon).2.1) :: s, ?_, ?_⟩
      · rw [h1, List.append_assoc]; simp
      · exact h2.cons₂ _

/-- Each processed reading adds exactly one to either the cleaned list or the
skipped counter. -/
theorem sanityLoop_length (elat elon : ℤ) :
    ∀ (rest : List Reading) (i : ℕ) (cleaned : List Reading) (flips skipped : ℕ),
    ((sanityLoop elat elon rest i cleaned flips skipped).1).length
      + (sanityLoop elat elon rest i cleaned flips skipped).2.2
      = rest.length + cleaned.length + skipped := by
  intro rest
  induction rest with
  | nil => intro i cleaned flips skipped; simp [sanityLoop]
  | cons hd tl ih =>
    intro i cleaned flips skipped
    obtain ⟨t, lat, lon⟩ := hd
    simp only [sanityLoop]
    split
    · split
      · split
        · split
          · rw [ih]; simp; omega
          · rw [ih]; simp; omega
        · rw [ih]; simp; omega
      · rw [ih]; simp; omega
    · rw [ih]; simp; omega

/-- Each processed reading adds at most one to the corrections counter. -/
theorem sanityLoop_flips_le (elat elon : ℤ) :
    ∀ (rest : List Reading) (i : ℕ) (cleaned : List Reading) (flips skipped : ℕ),
    (sanityLoop elat elon rest i cleaned flips skipped).2.1 ≤ rest.length + flips := by
  intro rest
  induction rest with
  | nil => intro i cleaned flips skipped; simp [sanityLoop]
  | cons hd tl ih =>
    intro i cleaned flips skipped
    obtain ⟨t, lat, lon⟩ := hd
    simp only [sanityLoop, List.length_cons]
    split
    · split
      · split
        · split
          · exact le_trans (ih ..) (by split <;> omega)
          · exact le_trans (ih ..) (by split <;> omega)
        · exact le_trans (ih ..) (by split <;> omega)
      · exact le_trans (ih ..) (by split <;> omega)
    · exact le_trans (ih ..) (by split <;> omega)

/-- The haversine distance from `(0, 0)` to `(0, 180)`: the two points are
antipodal along the equator, so the central angle is `π` and the distance is
the sphere's half-circumference. -/
theorem haversine_antipodal_lon : haversine 0 0 0 180 = 6371000 * Real.pi := by
  have h0 : ((0 : ℝ) - 0) * Real.pi / 180 / 2 = 0 := by ring
  have h1 : ((180 : ℝ) - 0) * Real.pi / 180 / 2 = Real.pi / 2 := by ring
  have h2 : (0 : ℝ) * Real.pi / 180 = 0 := by ring
  simp only [haversine, radians, h0, h1, h2, Real.sin_zero, Real.cos_zero, Real.sin_pi_div_two]
  norm_num [atan2, Real.sqrt_one]
  ring

/-- Unfolding the loop on a reading that fails the plausibility check. -/
theorem sanityLoop_skip
    (t lat lon : ℚ) (rest : List Reading) (elat elon : ℤ) (i : ℕ)
    (cleaned : List Reading) (flips skipped : ℕ) (prev : Reading)
    (hi : 0 < i) (hlast : cleaned.getLast? = some prev)
    (hdt : 0 < t - prev.1)
    (hspeed : 300 < haversine (prev.2.1 : ℝ) (prev.2.2 : ℝ)
        ((correct_sign lat lon elat elon).1 : ℝ) ((correct_sign lat lon elat elon).2.1 : ℝ)
        / ((t - prev.1 : ℚ) : ℝ) * 3.6) :
    sanityLoop elat elon ((t, lat, lon) :: rest) i cleaned flips skipped
      = sanityLoop elat elon rest (i + 1) cleaned
          (if (correct_sign lat lon elat elon).2.2.1 || (correct_sign lat lon elat elon).2.2.2
            then flips + 1 else flips)
          (skipped + 1) := by
  simp only [sanityLoop, hlast, hi, hdt, hspeed, if_true]

/-- Unfolding the loop on a reading whose elapsed time from the anchor is not
positive: accepted with no speed computation. -/
theorem sanityLoop_accept_nonpos
    (t lat lon : ℚ) (rest : List Reading) (elat elon : ℤ) (i : ℕ)
    (cleaned : List Reading) (flips skipped : ℕ) (prev : Reading)
    (hi : 0 < i) (hlast : cleaned.getLast? = some prev)
    (hdt : t - prev.1 ≤ 0) :
    sanityLoop elat elon ((t, lat, lon) :: rest) i cleaned flips skipped
      = sanityLoop elat elon rest (i + 1)
          (cleaned ++ [(t, (correct_sign lat lon elat elon).1,
            (correct_sign lat lon elat elon).2.1)])
          (if (correct_sign lat lon elat elon).2.2.1 || (correct_sign lat lon elat elon).2.2.2
            then flips + 1 else flips)
          skipped := by
  have hdt' : ¬ (0 < t - prev.1) := not_lt.mpr hdt
  simp only [sanityLoop, hlast, hi, hdt', if_true, if_false]

/-- Unfolding the loop on the very first reading: always accepted. -/
theorem sanityLoop_cons_zero
    (t lat lon : ℚ) (rest : List Reading) (elat elon : ℤ)
    (cleaned : List Reading) (flips skipped : ℕ) :
    sanityLoop elat elon ((t, lat, lon) :: rest) 0 cleaned flips skipped
      = sanityLoop elat elon rest 1
          (cleaned ++ [(t, (correct_sign lat lon elat elon).1,
            (correct_sign lat lon elat elon).2.1)])
          (if (correct_sign lat lon elat elon).2.2.1 || (correct_sign lat lon elat elon).2.2.2
            then flips + 1 else flips)
          skipped := by
  simp only [sanityLoop, lt_irrefl, if_false]

/-! ### Claims about the sanitizer -/

/-- C1: when an anchor exists and the elapsed time `dt` to it is positive,
a reading whose haversine distance from the anchor divided by `dt` and
scaled by 3.6 exceeds 300 km/h is not appended: the skipped counter grows by
one and the anchor list is passed on unchanged. -/
theorem outlier_rejection_skips_reading
    (t lat lon : ℚ) (rest : List Reading) (elat elon : ℤ) (i : ℕ)
    (cleaned : List Reading) (flips skipped : ℕ) (prev : Reading)
    (hi : 0 < i) (hlast : cleaned.getLast? = some prev)
    (hdt : 0 < t - prev.1)
    (hspeed : 300 < haversine (prev.2.1 : ℝ) (prev.2.2 : ℝ)
        ((correct_sign lat lon elat elon).1 : ℝ) ((correct_sign lat lon elat elon).2.1 : ℝ)
        / ((t - prev.1 : ℚ) : ℝ) * 3.6) :
    sanityLoop elat elon ((t, lat, lon) :: rest) i cleaned flips skipped
      = sanityLoop elat elon rest (i + 1) cleaned
          (if (correct_sign lat lon elat elon).2.2.1 || (correct_sign lat lon elat elon).2.2.2
            then flips + 1 else flips)
          (skipped + 1) :=
  sanityLoop_skip t lat lon rest elat elon i cleaned flips skipped prev hi hlast hdt hspeed

/-- Witness for C1: the reading `(1, 0, 180)` against the anchor `(0, 0, 0)`
implies a speed far above 300 km/h, so it is skipped and the anchor stays. -/
theorem outlier_rejection_skips_reading_witness :
    sanityLoop 1 1 [((1 : ℚ), 0, 180)] 1 [((0 : ℚ), 0, 0)] 0 0
      = ([((0 : ℚ), 0, 0)], 0, 1) := by
  have hcs : correct_sign 0 180 1 1 = (0, 180, false, false) := by
    rw [correct_sign_eq]; norm_num
  have hsp : 300 < haversine ((((0 : ℚ), (0 : ℚ), (0 : ℚ)) : Reading).2.1 : ℝ)
      ((((0 : ℚ), (0 : ℚ), (0 : ℚ)) : Reading).2.2 : ℝ)
      ((correct_sign 0 180 1 1).1 : ℝ) ((correct_sign 0 180 1 1).2.1 : ℝ)
      / (((1 : ℚ) - (((0 : ℚ), (0 : ℚ), (0 : ℚ)) : Reading).1 : ℚ) : ℝ) * 3.6 := by
    rw [hcs]
    push_cast
    norm_num
    nlinarith [Real.pi_gt_three, haversine_antipodal_lon]
  rw [outlier_rejection_skips_reading 1 0 180 [] 1 1 1 [((0 : ℚ), 0, 0)] 0 0
    ((0 : ℚ), 0, 0) (by norm_num) rfl (by norm_num) hsp]
  simp [sanityLoop, hcs]

/-- C4: when an anchor exists and the elapsed time to it is zero or negative,
the reading is accepted unconditionally: it is appended and no speed is
computed, so no division by a non-positive `dt` ever happens. -/
theorem nonpositive_dt_passthrough
    (t lat lon : ℚ) (rest : List Reading) (elat elon : ℤ) (i : ℕ)
    (cleaned : List Reading) (flips skipped : ℕ) (prev : Reading)
    (hi : 0 < i) (hlast : cleaned.getLast? = some prev)
    (hdt : t - prev.1 ≤ 0) :
    sanityLoop elat elon ((t, lat, lon) :: rest) i cleaned flips skipped
      = sanityLoop elat elon rest (i + 1)
          (cleaned ++ [(t, (correct_sign lat lon elat elon).1,
            (correct_sign lat lon elat elon).2.1)])
          (if (correct_sign lat lon elat elon).2.2.1 || (correct_sign lat lon elat elon).2.2.2
            then flips + 1 else flips)
          skipped :=
  sanityLoop_accept_nonpos t lat lon rest elat elon i cleaned flips skipped prev hi hlast hdt

/-- Witness for C4: a duplicate timestamp (`dt = 0`) passes straight through
and both readings are kept. -/
theorem nonpositive_dt_passthrough_witness :
    sanityLoop 1 1 [((0 : ℚ), 2, 3)] 1 [((0 : ℚ), 2, 3)] 0 0
      = ([((0 : ℚ), 2, 3), ((0 : ℚ), 2, 3)], 0, 0) := by
  have hcs : correct_sign 2 3 1 1 = (2, 3, false, false) := by
    rw [correct_sign_eq]; norm_num
  rw [nonpositive_dt_passthrough 0 2 3 [] 1 1 1 [((0 : ℚ), 2, 3)] 0 0
    ((0 : ℚ), 2, 3) (by norm_num) rfl (by norm_num)]
  simp [sanityLoop, hcs]

/-- C10: the corrections counter also counts readings that are then skipped:
on this input the second reading's longitude sign is corrected, the corrected
reading is still rejected as implausible, and the cleaned output holds only
readings that appear verbatim (uncorrected) in the input, so corrections = 1
exceeds the number of corrected readings in the output. -/
theorem corrections_count_includes_skipped :
    sanity_check [((0 : ℚ), 0, 0), ((1 : ℚ), 0, -180)] 1 1 = ([((0 : ℚ), 0, 0)], 1, 1)
    ∧ ((sanity_check [((0 : ℚ), 0, 0), ((1 : ℚ), 0, -180)] 1 1).1.all
        (fun r => decide (r ∈ [((0 : ℚ), 0, 0), ((1 : ℚ), 0, -180)]))) = true := by
  have hcs1 : correct_sign 0 0 1 1 = (0, 0, false, false) := by
    rw [correct_sign_eq]; norm_num
  have hcs2 : correct_sign 0 (-180) 1 1 = (0, 180, false, true) := by
    rw [correct_sign_eq]; norm_num
  have hsp : 300 < haversine ((((0 : ℚ), (0 : ℚ), (0 : ℚ)) : Reading).2.1 : ℝ)
      ((((0 : ℚ), (0 : ℚ), (0 : ℚ)) : Reading).2.2 : ℝ)
      ((correct_sign 0 (-180) 1 1).1 : ℝ) ((correct_sign 0 (-180) 1 1).2.1 : ℝ)
      / (((1 : ℚ) - (((0 : ℚ), (0 : ℚ), (0 : ℚ)) : Reading).1 : ℚ) : ℝ) * 3.6 := by
    rw [hcs2]
    push_cast
    norm_num
    nlinarith [Real.pi_gt_three, haversine_antipodal_lon]
  have hrun : sanity_check [((0 : ℚ), 0, 0), ((1 : ℚ), 0, -180)] 1 1
      = ([((0 : ℚ), 0, 0)], 1, 1) := by
    unfold sanity_check
    rw [sanityLoop_cons_zero]
    simp only [hcs1, Bool.or_self, Bool.false_eq_true, if_false, List.nil_append]
    rw [sanityLoop_skip 1 0 (-180) [] 1 1 1 [((0 : ℚ), 0, 0)] 0 0 ((0 : ℚ), 0, 0)
      (by norm_num) rfl (by norm_num) hsp]
    simp [sanityLoop, hcs2]
  refine ⟨hrun, ?_⟩
  rw [hrun]
  simp

/-! ### Claims about the GPX writer -/

/-- Taking while a predicate holds stops exactly at a failing sentinel. -/
theorem takeWhile_append_sentinel {α : Type} (p : α → Bool) (l r : List α) (c0 : α)
    (h : ∀ c ∈ l, p c = true) (hc : p c0 = false) :
    List.takeWhile p (l ++ c0 :: r) = l := by
  induction l with
  | nil => simp [List.takeWhile_cons, hc]
  | cons a tl ih =>
    have ha : p a = true := h a (by simp)
    simp only [List.cons_append, List.takeWhile_cons, ha, if_true]
    rw [ih (fun c hcmem => h c (by simp [hcmem]))]

/-- The ten digit characters are digits and none of them is a point. -/
theorem digitChar_facts : ∀ d : ℕ, d < 10 →
    (Nat.digitChar d).isDigit = true ∧ (!(Nat.digitChar d == '.')) = true := by decide

/-- Every character of a six-digit fraction block is a digit and not a
point. -/
theorem fracDigits6_facts (n : ℕ) :
    ∀ c ∈ fracDigits6 n, c.isDigit = true ∧ (!(c == '.')) = true := by
  intro c hc
  simp only [fracDigits6, List.mem_cons, List.not_mem_nil, or_false] at hc
  rcases hc with rfl | rfl | rfl | rfl | rfl | rfl <;>
    exact digitChar_facts _ (Nat.mod_lt _ (by norm_num))

/-- What stands after the point in a formatted coordinate is exactly the
six-digit fraction block. -/
theorem decimalsOf_fmt6 (q : ℚ) :
    decimalsOf (fmt6 q)
      = (fracDigits6 ((roundHalfEven (ratAbs q * 1000000)).toNat % 1000000)).reverse := by
  unfold decimalsOf fmt6
  simp only [List.reverse_append, List.reverse_cons, List.append_assoc, List.cons_append,
    List.nil_append, List.singleton_append]
  refine takeWhile_append_sentinel _ _ _ _ ?_ (by decide)
  intro c hc
  rw [List.mem_reverse] at hc
  exact (fracDigits6_facts _ c hc).2

/-- The sequential writes of the point loop concatenate one line per point. -/
theorem foldl_trkpt_flatten (points : List (List Char × ℚ × ℚ)) :
    ∀ acc : List Char,
    points.foldl (fun a p => a ++ trkpt_line p.1 p.2.1 p.2.2) acc
      = acc ++ (points.map (fun p => trkpt_line p.1 p.2.1 p.2.2)).flatten := by
  induction points with
  | nil => intro acc; simp
  | cons hd tl ih => intro acc; simp [ih, List.append_assoc]

/-- C8: the writer emits the header (opening one `gpx`, one `trk` and one
`trkseg`), then exactly one `trkpt` line per reading in input order, then the
footer closing them; each line carries a `<time>` child holding the reading's
timestamp text suffixed with a literal Z, and every formatted coordinate ends
in a point followed by exactly six digits. -/
theorem gpx_structure (points : List (List Char × ℚ × ℚ)) :
    write_gpx points
      = gpxHeader ++ (points.map (fun p => trkpt_line p.1 p.2.1 p.2.2)).flatten ++ gpxFooter
    ∧ (∀ t : List Char, ∀ lat lon : ℚ,
        ∃ a b : List Char,
          trkpt_line t lat lon = a ++ ("<time>".toList ++ t ++ "Z</time>".toList) ++ b)
    ∧ (∀ q : ℚ, (decimalsOf (fmt6 q)).length = 6
        ∧ ∀ c ∈ decimalsOf (fmt6 q), c.isDigit = true) := by
  refine ⟨?_, ?_, ?_⟩
  · unfold write_gpx
    rw [foldl_trkpt_flatten points []]
    simp
  · intro t lat lon
    refine ⟨"      <trkpt lat=\"".toList ++ fmt6 lat ++ "\" lon=\"".toList ++ fmt6 lon
      ++ "\">".toList, "</trkpt>\n".toList, ?_⟩
    have h1 : ("\"><time>".toList : List Char) = "\">".toList ++ "<time>".toList := by decide
    have h2 : ("Z</time></trkpt>\n".toList : List Char)
        = "Z</time>".toList ++ "</trkpt>\n".toList := by decide
    simp [trkpt_line, h1, h2, List.append_assoc]
  · intro q
    rw [decimalsOf_fmt6]
    constructor
    · simp [fracDigits6]
    · intro c hc
      rw [List.mem_reverse] at hc
      exact (fracDigits6_facts _ c hc).1

/-- C2: a coordinate is negated exactly when its magnitude exceeds one degree
and its sign disagrees with the expected hemisphere sign, each axis
independently; a value of magnitude at most one is left untouched; the
corrections counter grows by one for a reading where at least one axis
flipped (never two), by zero otherwise, and over any run it never exceeds
the number of readings. -/
theorem sign_correction_per_axis_and_count (t lat lon : ℚ) (elat elon : ℤ) :
    ((correct_sign lat lon elat elon).1
        = if 1 < |lat| ∧ lat * (elat : ℚ) < 0 then -lat else lat)
    ∧ ((correct_sign lat lon elat elon).2.1
        = if 1 < |lon| ∧ lon * (elon : ℚ) < 0 then -lon else lon)
    ∧ ((correct_sign lat lon elat elon).2.2.1 = decide (1 < |lat| ∧ lat * (elat : ℚ) < 0))
    ∧ ((correct_sign lat lon elat elon).2.2.2 = decide (1 < |lon| ∧ lon * (elon : ℚ) < 0))
    ∧ ((sanity_check [(t, lat, lon)] elat elon).2.1
        = if (1 < |lat| ∧ lat * (elat : ℚ) < 0) ∨ (1 < |lon| ∧ lon * (elon : ℚ) < 0)
          then 1 else 0)
    ∧ (∀ points : List Reading, (sanity_check points elat elon).2.1 ≤ points.length) := by
  rw [correct_sign_eq]
  refine ⟨rfl, rfl, rfl, rfl, ?_, ?_⟩
  · simp only [sanity_check, sanityLoop, correct_sign_eq]
    by_cases h1 : 1 < |lat| ∧ lat * (elat : ℚ) < 0 <;>
      by_cases h2 : 1 < |lon| ∧ lon * (elon : ℚ) < 0 <;>
        simp [h1, h2]
  · intro points
    have h := sanityLoop_flips_le elat elon points 0 [] 0 0
    simpa [sanity_check] using h

/-- C3: the cleaned length and the skipped count always add up to the number
of input readings: every reading is either kept once or skipped once. -/
theorem cleaned_plus_skipped_conservation (points : List Reading) (elat elon : ℤ) :
    ((sanity_check points elat elon).1).length + (sanity_check points elat elon).2.2
      = points.length := by
  have h := sanityLoop_length elat elon points 0 [] 0 0
  simpa [sanity_check] using h

/-- C7: with expected signs `(+1, -1)`, sanitizing `(t, 43.5, 79.2)` corrects
the longitude to `-79.2` and reports one correction; sanitizing the corrected
single-point sequence again changes nothing and reports zero corrections. -/
theorem sign_correction_idempotent_single (t : ℚ) :
    sanity_check [(t, 43.5, 79.2)] 1 (-1) = ([(t, 43.5, -79.2)], 1, 0)
    ∧ sanity_check [(t, 43.5, -79.2)] 1 (-1) = ([(t, 43.5, -79.2)], 0, 0) := by
  constructor <;>
    · simp +decide [sanity_check, sanityLoop, correct_sign, ratAbs]
      norm_num

/-- C9: sanitize changes nothing but coordinate signs: the cleaned output is
a subsequence, in order, of the sign-corrected inputs, and every output
reading keeps the timestamp and the coordinate magnitudes of some input
reading. -/
theorem sanitize_frame_effect (points : List Reading) (elat elon : ℤ) :
    List.Sublist (sanity_check points elat elon).1 (points.map (applySign elat elon))
    ∧ ∀ p ∈ (sanity_check points elat elon).1,
        ∃ q ∈ points, q.1 = p.1 ∧ |q.2.1| = |p.2.1| ∧ |q.2.2| = |p.2.2| := by
  obtain ⟨s, h1, h2⟩ := sanityLoop_tail elat elon points 0 [] 0 0
  have hout : (sanity_check points elat elon).1 = s := by simpa [sanity_check] using h1
  constructor
  · rw [hout]; exact h2
  · intro p hp
    rw [hout] at hp
    have hp2 : p ∈ points.map (applySign elat elon) := h2.subset hp
    obtain ⟨q, hq, hqp⟩ := List.mem_map.mp hp2
    obtain ⟨e1, e2, e3⟩ := applySign_preserves elat elon q
    exact ⟨q, hq, by rw [← hqp]; exact e1.symm, by rw [← hqp]; exact e2.symm,
      by rw [← hqp]; exact e3.symm⟩

end DashboardToGpx
